import Mathlib

/- Shallow embedding of the financial-statement table extraction engine of
   the playwright-crawler repository: app/utils/data.py (text cleaning and
   amount parsing) and app/src/crawler.py (table-format validation,
   statement-type resolution, indentation-hierarchy building and record
   assembly in FinancialStatementCrawler.search_right_panel).  Python
   strings are modelled as lists of characters. -/

namespace PWC

abbrev Str := List Char

def sl (s : String) : Str := s.data

/-- Unicode whitespace as recognised by Python str.strip / the regex class
written as a backslash-s in the source. -/
def isSpaceCh (c : Char) : Bool :=
  c = ' ' || c = '\t' || c = '\n' || c = '\r' ||
  c.val = 11 || c.val = 12 || (28 ≤ c.val && c.val ≤ 31) ||
  c.val = 0x85 || c.val = 0xa0 || c.val = 0x1680 ||
  (0x2000 ≤ c.val && c.val ≤ 0x200a) ||
  c.val = 0x2028 || c.val = 0x2029 || c.val = 0x202f ||
  c.val = 0x205f || c.val = 0x3000

def isDigitCh (c : Char) : Bool := 48 ≤ c.val && c.val ≤ 57

/-- Python str.strip(): drop leading and trailing whitespace. -/
def stripCh (s : Str) : Str :=
  ((s.dropWhile isSpaceCh).reverse.dropWhile isSpaceCh).reverse

/-- matchAt pat s holds when pat is an initial segment of s. -/
def matchAt : Str → Str → Bool
  | [], _ => true
  | _ :: _, [] => false
  | a :: as, b :: bs => a = b && matchAt as bs

/-- containsSub pat s is the Python substring test `pat in s`. -/
def containsSub (pat : Str) : Str → Bool
  | [] => matchAt pat []
  | c :: t => matchAt pat (c :: t) || containsSub pat t

/-- re.match of the year pattern 제 backslash-s* backslash-d+ backslash-s* 기
applied to the stripped cell text, a prefix match, exactly as in
valid_standard_nb_table and valid_standard_data_table (crawler.py lines
240 and 277). -/
def matchJeGi (s : Str) : Bool :=
  match stripCh s with
  | [] => false
  | c :: r =>
    c = '제' &&
      (let r1 := r.dropWhile isSpaceCh
       !(r1.takeWhile isDigitCh).isEmpty &&
         (match (r1.dropWhile isDigitCh).dropWhile isSpaceCh with
          | d :: _ => d = '기'
          | [] => false))

/-- Check of one of the rows 1..3 in valid_standard_nb_table (crawler.py
lines 232-242): the row must have at least one cell and only its FIRST
cell (tds.first) is tested against the year pattern; an empty first cell
fails the truthiness test, which coincides with matchJeGi on the empty
string. -/
def nbRowOk (row : List Str) : Bool :=
  match row with
  | [] => false
  | c :: _ => matchJeGi c

/-- valid_standard_nb_table (crawler.py lines 217-251): at least 5 rows,
and rows with index 1, 2 and 3 each pass nbRowOk; the years_found counter
reaches 3 exactly when all three rows pass. -/
def valid_standard_nb_table (rows : List (List Str)) : Bool :=
  decide (5 ≤ rows.length) &&
    (nbRowOk (rows.getD 1 []) && nbRowOk (rows.getD 2 []) && nbRowOk (rows.getD 3 []))

/-- Per-header-cell condition of valid_standard_data_table (crawler.py
lines 270-280).  The is_standard flag only ever moves to False and the
break merely stops the loop early, so the final value is the conjunction
of the per-cell conditions: cell 0 must strip to empty, and cells with
index j satisfying 1 < j < 4 (that is, cells 2 and 3 only) must strip to
empty or match the year pattern. -/
def dataCellOk (j : Nat) (c : Str) : Bool :=
  (decide (j ≠ 0) || (stripCh c).isEmpty) &&
  (!(decide (1 < j) && decide (j < 4)) || (stripCh c).isEmpty || matchJeGi c)

/-- valid_standard_data_table (crawler.py lines 253-284): a table with no
header row is non-standard; otherwise the header must have exactly 4
cells and every cell must pass dataCellOk. -/
def valid_standard_data_table : Option (List Str) → Bool
  | none => false
  | some cells =>
    decide (cells.length = 4) && cells.enum.all (fun p => dataCellOk p.1 p.2)

/-- TARGET_SJ_LIST of FinancialStatementCrawler (crawler.py lines 20-24). -/
def TARGET_SJ_LIST : List Str :=
  [sl "연결재무제표", sl "재무제표", sl "연결재무상태표", sl "연결손익계산서",
   sl "연결포괄손익계산서", sl "재무상태표", sl "손익계산서", sl "포괄손익계산서"]

/-- fs_div computation of search_right_panel (crawler.py lines 354-358). -/
def fsDivOf (cap : Str) : Str :=
  if containsSub (sl "연결") cap then sl "CFS" else sl "OFS"

/-- sj_div kind computation of search_right_panel (crawler.py lines
360-365): 재무상태표 is tested first, then 포괄손익계산서, then 손익계산서;
when none of the keywords occurs the caption itself is kept. -/
def sjKindOf (cap : Str) : Str :=
  if containsSub (sl "재무상태표") cap then sl "BS"
  else if containsSub (sl "포괄손익계산서") cap then sl "CIS"
  else if containsSub (sl "손익계산서") cap then sl "IS"
  else cap

/-- template sj_div string built at crawler.py line 367. -/
def resolveSj (cap : Str) : Str := fsDivOf cap ++ '_' :: sjKindOf cap

/-- Six statement codes of the {CFS,OFS} x {BS,IS,CIS} enum. -/
def sixCodes : List Str :=
  [sl "CFS_BS", sl "CFS_IS", sl "CFS_CIS", sl "OFS_BS", sl "OFS_IS", sl "OFS_CIS"]

/- Text-cleaning pipeline of app/utils/data.py.  clean_account_name and
   clean_paragraph_text are textually identical, so one function cleanText
   embeds both.  Each re.sub with empty replacement is embedded as a
   one-pass left-to-right scanner that mirrors the leftmost-match
   semantics of the Python regex engine. -/

def isRomanCh (c : Char) : Bool :=
  c = 'I' || c = 'V' || c = 'X' || c = 'L' || c = 'C' || c = 'D' || c = 'M'

def isHangulCh (c : Char) : Bool := 0xAC00 ≤ c.val && c.val ≤ 0xD7A3

/-- Unicode Roman-numeral glyph range removed at step 3 of the pipeline. -/
def isUniRomanCh (c : Char) : Bool := 0x2160 ≤ c.val && c.val ≤ 0x2188

/-- Word characters for the word-boundary assertions of the ASCII
Roman-numeral pattern, restricted to the character classes that occur in
this pipeline: ASCII alphanumerics, underscore, Hangul syllables and
Unicode Roman-numeral glyphs. -/
def isWordCh (c : Char) : Bool :=
  (65 ≤ c.val && c.val ≤ 90) || (97 ≤ c.val && c.val ≤ 122) ||
  isDigitCh c || c = '_' || isHangulCh c || isUniRomanCh c

/-- Literal pattern of the unit-annotation replace at step 2. -/
def patUnit : Str := sl "(단위:원)"

/-- Scanner for str.replace of the literal pattern patUnit with the empty
string.  The state k counts pattern characters already matched; because
the opening parenthesis occurs in the pattern only at position 0, a failed
partial match can only restart at the failing character itself. -/
def replUnitGo : Nat → Str → Str
  | k, [] => patUnit.take k
  | k, c :: r =>
    if c = patUnit.getD k ' ' then
      if k + 1 = patUnit.length then replUnitGo 0 r else replUnitGo (k + 1) r
    else
      patUnit.take k ++ (if c = '(' then replUnitGo 1 r else c :: replUnitGo 0 r)

def replaceUnit (s : Str) : Str := replUnitGo 0 s

/-- Scanner state for the ASCII Roman-numeral removal (step 3): nrm keeps
whether the previous character was a word character (for the leading
word-boundary), run buffers a candidate numeral run started at a
boundary. -/
inductive RomSt where
  | nrm (prevWord : Bool)
  | run (buf : Str)

/-- re.sub of backslash-b [IVXLCDM]+ backslash-b backslash-dot-optional
with the empty string.  Inside a buffered run every restart position fails
the leading boundary, so on a following word character the whole run is
emitted verbatim; on a following non-word character the run is deleted and
an immediately following period is consumed with it. -/
def subRomanGo : RomSt → Str → Str
  | .nrm _, [] => []
  | .run _, [] => []
  | .nrm prev, c :: r =>
    if isRomanCh c && !prev then subRomanGo (.run [c]) r
    else c :: subRomanGo (.nrm (isWordCh c)) r
  | .run buf, c :: r =>
    if isRomanCh c then subRomanGo (.run (c :: buf)) r
    else if !isWordCh c then
      if c = '.' then subRomanGo (.nrm false) r
      else c :: subRomanGo (.nrm (isWordCh c)) r
    else buf.reverse ++ c :: subRomanGo (.nrm true) r

def subRoman (s : Str) : Str := subRomanGo (.nrm false) s

/-- Character class inside the footnote pattern of step 4. -/
def isJuBody (c : Char) : Bool := isDigitCh c || c = ',' || isSpaceCh c

/-- Scanner state for the footnote removal: s0 scans, s1 has seen an
opening parenthesis, s2 has seen the parenthesis and the 주 character and
buffers the digits, commas and spaces that follow. -/
inductive JuSt where
  | s0
  | s1
  | s2 (buf : Str)

/-- re.sub of the footnote pattern (an opening parenthesis, 주, then
digits, commas or spaces, then a closing parenthesis) with the empty
string.  The body class contains no opening parenthesis, so after a
failure the only possible restart is the failing character itself. -/
def subJuGo : JuSt → Str → Str
  | .s0, [] => []
  | .s1, [] => ['(']
  | .s2 buf, [] => '(' :: '주' :: buf.reverse
  | .s0, c :: r => if c = '(' then subJuGo .s1 r else c :: subJuGo .s0 r
  | .s1, c :: r =>
    if c = '주' then subJuGo (.s2 []) r
    else if c = '(' then '(' :: subJuGo .s1 r
    else '(' :: c :: subJuGo .s0 r
  | .s2 buf, c :: r =>
    if c = ')' then subJuGo .s0 r
    else if isJuBody c then subJuGo (.s2 (c :: buf)) r
    else if c = '(' then ('(' :: '주' :: buf.reverse) ++ subJuGo .s1 r
    else ('(' :: '주' :: buf.reverse) ++ c :: subJuGo .s0 r

def subJu (s : Str) : Str := subJuGo .s0 s

/-- Scanner for re.sub of an op character, any run of non-cl characters
and a cl character, with the empty string (step 5, applied once with the
half-width and once with the full-width parenthesis pair).  The state
buffers the characters seen since the last unmatched op; an op with no
later cl is emitted verbatim since the buffered characters contain no cl
and hence admit no later match. -/
def subParenGo (op cl : Char) : Option Str → Str → Str
  | none, [] => []
  | some buf, [] => op :: buf.reverse
  | none, c :: r =>
    if c = op then subParenGo op cl (some []) r
    else c :: subParenGo op cl none r
  | some buf, c :: r =>
    if c = cl then subParenGo op cl none r
    else subParenGo op cl (some (c :: buf)) r

def subParen (op cl : Char) (s : Str) : Str := subParenGo op cl none s

/-- Scanner state for step 6: sh has seen a Hangul syllable, sd is
deleting the whitespace run after a matched syllable-period pair. -/
inductive HdSt where
  | h0
  | sh (h : Char)
  | sd

/-- re.sub of a Hangul syllable followed by a period and a whitespace run
with the empty string (step 6, the enumeration-prefix removal). -/
def subHangulDotGo : HdSt → Str → Str
  | .h0, [] => []
  | .sh h, [] => [h]
  | .sd, [] => []
  | .h0, c :: r =>
    if isHangulCh c then subHangulDotGo (.sh c) r else c :: subHangulDotGo .h0 r
  | .sh h, c :: r =>
    if c = '.' then subHangulDotGo .sd r
    else if isHangulCh c then h :: subHangulDotGo (.sh c) r
    else h :: c :: subHangulDotGo .h0 r
  | .sd, c :: r =>
    if isSpaceCh c then subHangulDotGo .sd r
    else if isHangulCh c then subHangulDotGo (.sh c) r
    else c :: subHangulDotGo .h0 r

def subHangulDot (s : Str) : Str := subHangulDotGo .h0 s

/-- Character class removed at step 7: digits, period, hyphen, underscore
and the two lenticular brackets. -/
def isStep7Bad (c : Char) : Bool :=
  isDigitCh c || c = '.' || c = '-' || c = '_' || c = '【' || c = '】'

/-- clean_account_name / clean_paragraph_text of app/utils/data.py (lines
38-121), the two textually identical cleaning pipelines: strip, remove the
unit annotation and straight quotes, remove ASCII and Unicode Roman
numerals, remove footnote spans, remove all remaining half- and full-width
parenthetical spans, remove Hangul enumeration prefixes, remove digits and
listed punctuation, remove the full-width space, then remove every
remaining whitespace character.  The single-character str.replace calls
with empty replacement are embedded as filters. -/
def cleanText (s : Str) : Str :=
  let t1 := stripCh s
  let t2 := (replaceUnit t1).filter (fun c => !(c = '"'))
  let t3 := (subRoman t2).filter (fun c => !isUniRomanCh c)
  let t4 := subJu t3
  let t5 := subParen '（' '）' (subParen '(' ')' t4)
  let t6 := subHangulDot t5
  let t7 := t6.filter (fun c => !isStep7Bad c)
  let t8 := t7.filter (fun c => !(c = Char.ofNat 0x3000))
  t8.filter (fun c => !isSpaceCh c)

/- Data-table row extraction and indentation-hierarchy building of
   search_right_panel (crawler.py lines 405-474). -/

structure ARow where
  ordv : Nat
  rawName : Str
  name : Str
  amounts : List (Str × Str)
  level : Nat
  anc : List Str
deriving DecidableEq, Repr

/-- Replacement of the full-width space by a regular space applied to the
raw name cell before the indentation count (crawler.py line 433). -/
def fullToHalf (c : Char) : Char := if c = Char.ofNat 0x3000 then ' ' else c

/-- Name-cell processing of crawler.py lines 427-448: when the raw text is
non-empty, replace full-width spaces, count the leading whitespace as the
account level, clean the name, store it in the level map, and collect the
ancestors as the stored names of the occupied shallower levels in level
order.  Returns the updated map, the level, the cleaned name and the
ancestors. -/
def procName (m : Nat → Option Str) (raw : Str) :
    (Nat → Option Str) × Nat × Str × List Str :=
  if raw.isEmpty then (m, 0, [], [])
  else
    let rawR := raw.map fullToHalf
    let lvl := (rawR.takeWhile isSpaceCh).length
    let nm := cleanText rawR
    let mNew : Nat → Option Str := fun k => if k = lvl then some nm else m k
    (mNew, lvl, nm, (List.range lvl).filterMap mNew)

/-- Amount-cell normalisation at crawler.py line 455: the stripped text,
or the string 0 when the cell text strips to empty. -/
def cellAmount (t : Str) : Str := if (stripCh t).isEmpty then ['0'] else stripCh t

/-- Amount extraction of crawler.py lines 450-456: cells with index 1 to 3
whose text is non-empty contribute one year-amount pair, where the year is
years index k minus 1 (the empty string when years is too short); a cell
with empty text contributes nothing at all. -/
def rowAmounts (years : List Str) (cells : List Str) : List (Str × Str) :=
  cells.enum.filterMap (fun p =>
    if 1 ≤ p.1 ∧ p.1 ≤ 3 ∧ p.2.isEmpty = false then
      some (years.getD (p.1 - 1) [], cellAmount p.2)
    else none)

structure RState where
  m : Nat → Option Str
  ordv : Nat
  acc : List ARow

/-- Processing of one tbody row (crawler.py lines 417-474): the first cell
drives the hierarchy map, rows whose cleaned name is 과목 or empty are not
emitted (but have already updated the map), and emitted rows receive the
running ord_value. -/
def procDataRow (years : List Str) (st : RState) (cells : List Str) : RState :=
  match cells with
  | [] => st
  | c0 :: _ =>
    let pr := procName st.m c0
    let rawR := if c0.isEmpty then c0 else c0.map fullToHalf
    if pr.2.2.1 = sl "과목" then { st with m := pr.1 }
    else if pr.2.2.1.isEmpty then { st with m := pr.1 }
    else
      { m := pr.1, ordv := st.ordv + 1,
        acc := st.acc ++ [{ ordv := st.ordv, rawName := rawR, name := pr.2.2.1,
                            amounts := rowAmounts years cells,
                            level := pr.2.1, anc := pr.2.2.2 }] }

def emptyRState : RState := { m := fun _ => none, ordv := 1, acc := [] }

/-- Account rows extracted from one standard data table, with the level
map re-initialised per table (crawler.py lines 412-415). -/
def procDataRows (years : List Str) (rows : List (List Str)) : List ARow :=
  (rows.foldl (procDataRow years) emptyRState).acc

/- Record assembly of search_right_panel (crawler.py lines 307-487).
   Only the fields the claims are about are kept on the template: the
   sj_div statement code and the account data. -/

structure Template where
  sj : Str
  data : List ARow
deriving DecidableEq, Repr

/-- One table of the page, as classified by its class and border
attributes: an nb title table (rows of cell texts), a bordered data table
(optional header-row cells plus body rows), or any other table. -/
inductive Tbl where
  | nbT (rows : List (List Str))
  | dataT (header : Option (List Str)) (body : List (List Str))
  | otherT

/-- Caption of an nb table: the cleaned text of its first row, the row
text being the concatenation of the cell texts (crawler.py lines
346-347). -/
def nbCaption (rows : List (List Str)) : Str := cleanText (rows.getD 0 []).flatten

/-- Attachment of extracted account data at crawler.py lines 477-478: the
data of the LAST template appended so far is overwritten; with no template
yet, the account data is dropped. -/
def setLastData (ad : List ARow) : List Template → List Template
  | [] => []
  | [t] => [{ t with data := ad }]
  | t :: ts => t :: setLastData ad ts

/-- Per-table step of the search_right_panel loop (crawler.py lines
312-484): a valid nb table whose caption is in TARGET_SJ_LIST appends a
template carrying its resolved sj_div; a valid data table overwrites the
data of the last appended template; invalid tables (the data branch raises
and the per-table except continues) and other tables leave the dataset
unchanged. -/
def tblStep (years : List Str) (ds : List Template) : Tbl → List Template
  | .nbT rows =>
    if valid_standard_nb_table rows then
      if nbCaption rows ∈ TARGET_SJ_LIST then
        ds ++ [{ sj := resolveSj (nbCaption rows), data := [] }]
      else ds
    else ds
  | .dataT header body =>
    if valid_standard_data_table header then setLastData (procDataRows years body) ds
    else ds
  | .otherT => ds

/-- Dataset returned by search_right_panel for a page: left fold of
tblStep over the page tables, starting from the empty dataset. -/
def search_right_panel (years : List Str) (tbls : List Tbl) : List Template :=
  tbls.foldl (tblStep years) []

/-- Title tables surviving the format validator. -/
def isSurvivingTitle : Tbl → Bool
  | .nbT rows => valid_standard_nb_table rows
  | _ => false

/-- Data tables surviving the format validator. -/
def isSurvivingData : Tbl → Bool
  | .dataT header _ => valid_standard_data_table header
  | _ => false

/-- Title tables that actually append a record: valid format and a caption
in the allowed set. -/
def isEmittedTitle : Tbl → Bool
  | .nbT rows => valid_standard_nb_table rows && decide (nbCaption rows ∈ TARGET_SJ_LIST)
  | _ => false

/- Fiscal-year derivation and amount parsing. -/

/-- Characters after the last equals sign: url.split on the equals sign,
last component (crawler.py lines 293-294 and 297). -/
def afterLastEq (s : Str) : Str :=
  s.foldl (fun acc c => if c = '=' then [] else acc ++ [c]) []

/-- current_year of search_right_panel: first four characters after the
last equals sign of the page URL (crawler.py lines 293-294). -/
def currentYearOf (url : Str) : Str := (afterLastEq url).take 4

/-- Python int() on a string, modelled for nonempty all-digit strings; on
any other string int() raises, the per-table except clause skips the
table, and the model returns none. -/
def parseNatQ (s : Str) : Option Nat :=
  if !s.isEmpty && s.all isDigitCh then
    some (s.foldl (fun a c => a * 10 + (c.toNat - 48)) 0)
  else none

def natToStr (n : Nat) : Str := Nat.toDigits 10 n

/-- years list built at crawler.py line 410: the three data columns are
labelled current_year minus 1, minus 2 and minus 3, most recent first. -/
def searchYears (cy : Str) : Option (List Str) :=
  (parseNatQ cy).map (fun y => [natToStr (y - 1), natToStr (y - 2), natToStr (y - 3)])

/-- str_to_number of app/utils/data.py (lines 161-191) on string input:
strip, treat a parenthesis-wrapped body as negated, drop commas and
convert.  The float() conversion is modelled on unsigned-integer bodies
(the fragment the claims exercise); any body the conversion cannot parse
yields 0 through the except branch, as float() does on the empty and
non-numeric strings appearing in the claims. -/
def strToNumber (s : Str) : Int :=
  let t := stripCh s
  let neg := decide (t.head? = some '(' ∧ t.getLast? = some ')')
  let core := if neg then (t.drop 1).dropLast else t
  match parseNatQ (core.filter (fun c => !(c = ','))) with
  | some v => if neg then -(v : Int) else (v : Int)
  | none => 0

/- Concrete fixtures: two standard five-row nb title tables, one captioned
   재무상태표 and one captioned 재무제표. -/

def rowsBS : List (List Str) :=
  [[sl "재무상태표"], [sl "제 10 기"], [sl "제 9 기"], [sl "제 8 기"], [sl "(단위 : 원)"]]

def rowsFin : List (List Str) :=
  [[sl "재무제표"], [sl "제 10 기"], [sl "제 9 기"], [sl "제 8 기"], [sl "(단위 : 원)"]]

/-- C1: over the allowed caption set, a caption containing 포괄손익계산서 is
classified CIS and never IS, a caption containing 재무상태표 is classified
BS, and the scope is CFS exactly when the caption contains 연결; in
particular 연결포괄손익계산서 resolves to CFS_CIS and 재무상태표 to
OFS_BS. -/
theorem c1_statement_type_resolution :
    (∀ cap ∈ TARGET_SJ_LIST,
      (containsSub (sl "포괄손익계산서") cap = true →
        sjKindOf cap = sl "CIS" ∧ sjKindOf cap ≠ sl "IS") ∧
      (containsSub (sl "재무상태표") cap = true → sjKindOf cap = sl "BS") ∧
      (fsDivOf cap = sl "CFS" ↔ containsSub (sl "연결") cap = true)) ∧
    resolveSj (sl "연결포괄손익계산서") = sl "CFS_CIS" ∧
    resolveSj (sl "재무상태표") = sl "OFS_BS" := by decide

/-- Witness for C1 at the comprehensive-income caption. -/
theorem c1_witness :
    sjKindOf (sl "연결포괄손익계산서") = sl "CIS" ∧
    sjKindOf (sl "연결포괄손익계산서") ≠ sl "IS" :=
  (c1_statement_type_resolution.1 (sl "연결포괄손익계산서") (by decide)).1 (by decide)

/-- C3: ancestors come from the most recently stored name at each
shallower level: processing one row changes the level map only at that
row's own level, and on the concrete rows with leading-space counts
0, 2, 2, 4 the fourth row's ancestors are 자산 and 비유동자산, the most
recent level-2 name rather than the first. -/
theorem c3_hierarchy_most_recent :
    (∀ (m : Nat → Option Str) (raw : Str) (k : Nat),
        k ≠ (procName m raw).2.1 → (procName m raw).1 k = m k) ∧
    (procDataRows [] [[sl "자산"], [sl "  유동자산"], [sl "  비유동자산"], [sl "    현금"]]).map
        (fun r => (r.name, r.level, r.anc)) =
      [(sl "자산", 0, []), (sl "유동자산", 2, [sl "자산"]),
       (sl "비유동자산", 2, [sl "자산"]), (sl "현금", 4, [sl "자산", sl "비유동자산"])] := by
  constructor
  · intro m raw k hk
    by_cases hr : raw.isEmpty <;> simp only [procName, hr] at hk ⊢
    · simp
    · simp only [Bool.false_eq_true, if_false] at hk ⊢
      exact if_neg hk
  · decide

/-- Witness for C3 at a concrete map, row and level. -/
theorem c3_witness :
    (procName (fun _ => none) (sl "자산")).1 5 = none :=
  c3_hierarchy_most_recent.1 (fun _ => none) (sl "자산") 5 (by decide)

/-- C2 counterexample: a standard title table captioned 재무제표 (an
allowed caption containing none of the three kind keywords) is not
discarded: search_right_panel emits a record whose statement code is the
non-empty, out-of-enum string OFS_재무제표. -/
theorem c2_counterexample :
    search_right_panel [] [Tbl.nbT rowsFin] = [{ sj := sl "OFS_재무제표", data := [] }] ∧
    (sl "OFS_재무제표") ∉ sixCodes ∧ sl "OFS_재무제표" ≠ [] := by decide

/-- C4 counterexample: on rows with leading-space counts 0 and 2, the
second emitted record has account_level 2 but a single ancestor, because
level 1 was never occupied; the ancestors length does not equal the
account level. -/
theorem c4_counterexample :
    ¬ (∀ r ∈ procDataRows [] [[sl "자산"], [sl "  유동자산"]], r.anc.length = r.level) := by
  decide

/-- C5 counterexample: with one surviving title table and zero surviving
data tables, search_right_panel emits one record, not
min(count_title, count_data) = 0. -/
theorem c5_counterexample :
    (search_right_panel [] [Tbl.nbT rowsBS]).length = 1 ∧
    ([Tbl.nbT rowsBS].filter isSurvivingTitle).length = 1 ∧
    ([Tbl.nbT rowsBS].filter isSurvivingData).length = 0 ∧
    (1 : Nat) ≠ min 1 0 := by decide

/-- C6 counterexample: a four-cell header whose cell 1 is non-empty and
fails the year pattern is still accepted, because the source checks the
pattern only for cells with index strictly between 1 and 4. -/
theorem c6_counterexample :
    valid_standard_data_table (some [[], sl "x", sl "제 9 기", sl "제 8 기"]) = true ∧
    (stripCh (sl "x")).isEmpty = false ∧ matchJeGi (sl "x") = false := by decide

/-- C7 counterexample: a five-row table whose row 1 contains a matching
cell in second position but not in first position is rejected, because the
source tests only the first cell of each of rows 1 to 3. -/
theorem c7_counterexample :
    valid_standard_nb_table
        [[sl "재무상태표"], [sl "x", sl "제 10 기"], [sl "제 9 기"], [sl "제 8 기"],
         [sl "(단위 : 원)"]] = false ∧
    matchJeGi (sl "제 10 기") = true := by decide

/-- C8 counterexample: for a filing URL whose reception number starts with
2024, the fallback fiscal-year labels are 2023, 2022 and 2021, not the
2024, 2023 and 2022 the claim states. -/
theorem c8_counterexample :
    searchYears (currentYearOf (sl "https://dart.fss.or.kr/dsaf001/main.do?rcpNo=20240311001234")) =
      some [sl "2023", sl "2022", sl "2021"] ∧
    [sl "2023", sl "2022", sl "2021"] ≠ [sl "2024", sl "2023", sl "2022"] := by decide

/-- C9 counterexample: an unpaired opening parenthesis survives the
cleaning pipeline, and an ASCII Roman letter not delimited by word
boundaries survives as well. -/
theorem c9_counterexample :
    cleanText (sl "(") = sl "(" ∧ '(' ∈ cleanText (sl "(") ∧
    cleanText (sl "I자산") = sl "I자산" := by decide

/-- C10 counterexample: a truly blank amount cell contributes no entry at
all, rather than the amount 0: in a row with cells 자산, blank, 1,234 and
a parenthesised 5, only two year-amount pairs come out and none of them
carries the amount 0. -/
theorem c10_counterexample :
    rowAmounts [sl "2023", sl "2022", sl "2021"] [sl "자산", [], sl "1,234", sl "(5)"] =
      [(sl "2022", sl "1,234"), (sl "2021", sl "(5)")] ∧
    ∀ p ∈ rowAmounts [sl "2023", sl "2022", sl "2021"] [sl "자산", [], sl "1,234", sl "(5)"],
      p.2 ≠ sl "0" := by decide

/- Helper lemmas for the fold invariants. -/

theorem procName_anc_le (m : Nat → Option Str) (raw : Str) :
    (procName m raw).2.2.2.length ≤ (procName m raw).2.1 := by
  by_cases hr : raw.isEmpty <;> simp only [procName, hr]
  · simp
  · simp only [Bool.false_eq_true, if_false]
    exact le_trans (List.length_filterMap_le _ _) (le_of_eq (List.length_range _))

theorem procDataRow_anc_le (years : List Str) (st : RState) (cells : List Str)
    (h : ∀ r ∈ st.acc, r.anc.length ≤ r.level) :
    ∀ r ∈ (procDataRow years st cells).acc, r.anc.length ≤ r.level := by
  match cells with
  | [] => exact h
  | c0 :: cs =>
    by_cases h1 : (procName st.m c0).2.2.1 = sl "과목"
    · simpa [procDataRow, h1] using h
    · by_cases h2 : (procName st.m c0).2.2.1.isEmpty
      · simpa [procDataRow, h1, h2] using h
      · intro r hr
        simp only [procDataRow, h1, h2, Bool.false_eq_true, if_false] at hr
        rcases List.mem_append.mp hr with h3 | h3
        · exact h r h3
        · have h4 := List.mem_singleton.mp h3
          subst h4
          exact procName_anc_le st.m c0

theorem procDataRows_anc_le_aux (years : List Str) (rows : List (List Str)) :
    ∀ st : RState, (∀ r ∈ st.acc, r.anc.length ≤ r.level) →
      ∀ r ∈ (rows.foldl (procDataRow years) st).acc, r.anc.length ≤ r.level := by
  induction rows with
  | nil => intro st h; exact h
  | cons c cs ih => intro st h; exact ih _ (procDataRow_anc_le years st c h)

/-- C4 amended: for every emitted account record the number of ancestors
is at most the account level; it can fall short when a shallower
indentation level was never occupied by an earlier row, since ancestors
collect only the occupied shallower levels. -/
theorem c4_ancestors_length_le (years : List Str) (rows : List (List Str)) :
    ∀ r ∈ procDataRows years rows, r.anc.length ≤ r.level :=
  procDataRows_anc_le_aux years rows emptyRState (by intro r hr; simp [emptyRState] at hr)

/-- Witness for C4 at a one-row table. -/
theorem c4_witness :
    (⟨1, sl "자산", sl "자산", [], 0, []⟩ : ARow).anc.length ≤
      (⟨1, sl "자산", sl "자산", [], 0, []⟩ : ARow).level :=
  c4_ancestors_length_le [] [[sl "자산"]] _ (by decide)

theorem setLastData_length (ad : List ARow) (ds : List Template) :
    (setLastData ad ds).length = ds.length := by
  induction ds with
  | nil => rfl
  | cons t ts ih =>
    cases ts with
    | nil => rfl
    | cons u us => simpa [setLastData] using ih

theorem search_right_panel_len_aux (years : List Str) (tbls : List Tbl) :
    ∀ ds : List Template,
      (tbls.foldl (tblStep years) ds).length = ds.length + (tbls.filter isEmittedTitle).length := by
  induction tbls with
  | nil => intro ds; simp
  | cons tb rest ih =>
    intro ds
    cases tb with
    | nbT rows =>
      by_cases hv : valid_standard_nb_table rows
      · by_cases hc : nbCaption rows ∈ TARGET_SJ_LIST
        · simp [List.foldl_cons, tblStep, hv, hc, ih, isEmittedTitle, List.filter_cons]
          omega
        · simp [List.foldl_cons, tblStep, hv, hc, ih, isEmittedTitle, List.filter_cons]
      · simp [List.foldl_cons, tblStep, hv, ih, isEmittedTitle, List.filter_cons]
    | dataT header body =>
      by_cases hv : valid_standard_data_table header
      · simp [List.foldl_cons, tblStep, hv, ih, isEmittedTitle, List.filter_cons,
              setLastData_length]
      · simp [List.foldl_cons, tblStep, hv, ih, isEmittedTitle, List.filter_cons]
    | otherT => simp [List.foldl_cons, tblStep, ih, isEmittedTitle, List.filter_cons]

/-- C5 amended: search_right_panel emits exactly one record per valid
title table with an allowed caption, regardless of how many data tables
survive; each surviving data table only overwrites the account data of the
most recently appended record (and is dropped when no record exists yet),
so there is no min-truncated ordinal pairing. -/
theorem c5_emitted_count (years : List Str) (tbls : List Tbl) :
    (search_right_panel years tbls).length = (tbls.filter isEmittedTitle).length := by
  simpa using search_right_panel_len_aux years tbls []

/-- Statement codes that search_right_panel can put on an emitted record:
the six enum codes plus the two codes produced by the allowed captions
that contain no kind keyword. -/
def sjOk (s : Str) : Prop :=
  s ∈ sixCodes ∨ s = sl "CFS_연결재무제표" ∨ s = sl "OFS_재무제표"

theorem setLastData_sj (ad : List ARow) (ds : List Template) :
    ∀ t ∈ setLastData ad ds, ∃ u ∈ ds, u.sj = t.sj := by
  induction ds with
  | nil => intro t ht; cases ht
  | cons v ts ih =>
    cases ts with
    | nil =>
      intro t ht
      have h1 := List.mem_singleton.mp ht
      exact ⟨v, List.mem_cons_self v [], by rw [h1]⟩
    | cons w ws =>
      intro t ht
      rcases List.mem_cons.mp ht with h | h
      · exact ⟨v, List.mem_cons_self v _, by rw [h]⟩
      · obtain ⟨u, hu, he⟩ := ih t h
        exact ⟨u, List.mem_cons_of_mem v hu, he⟩

theorem tblStep_sjOk (years : List Str) (ds : List Template) (tb : Tbl)
    (h : ∀ t ∈ ds, sjOk t.sj) : ∀ t ∈ tblStep years ds tb, sjOk t.sj := by
  have hres : ∀ cap ∈ TARGET_SJ_LIST, sjOk (resolveSj cap) := by
    simp only [sjOk]; decide
  cases tb with
  | nbT rows =>
    by_cases hv : valid_standard_nb_table rows
    · by_cases hc : nbCaption rows ∈ TARGET_SJ_LIST
      · intro t ht
        simp only [tblStep, hv, hc, if_true, if_pos] at ht
        rcases List.mem_append.mp ht with h1 | h1
        · exact h t h1
        · have h2 := List.mem_singleton.mp h1
          subst h2
          exact hres _ hc
      · simpa [tblStep, hv, hc] using h
    · simpa [tblStep, hv] using h
  | dataT header body =>
    by_cases hv : valid_standard_data_table header
    · intro t ht
      simp only [tblStep, hv, if_true] at ht
      obtain ⟨u, hu, he⟩ := setLastData_sj (procDataRows years body) ds t ht
      rw [← he]
      exact h u hu
    · simpa [tblStep, hv] using h
  | otherT => simpa [tblStep] using h

theorem search_right_panel_sjOk_aux (years : List Str) (tbls : List Tbl) :
    ∀ ds : List Template, (∀ t ∈ ds, sjOk t.sj) →
      ∀ t ∈ tbls.foldl (tblStep years) ds, sjOk t.sj := by
  induction tbls with
  | nil => intro ds h; exact h
  | cons tb rest ih => intro ds h; exact ih _ (tblStep_sjOk years ds tb h)

/-- C2 amended: every record emitted by search_right_panel carries a
non-empty statement code derived from an allowed caption: one of the six
enum codes when the caption contains a kind keyword, and the out-of-enum
codes CFS_연결재무제표 or OFS_재무제표 for the two allowed captions without
a kind keyword, which are emitted rather than discarded. -/
theorem c2_emitted_sj_codes (years : List Str) (tbls : List Tbl) :
    ∀ t ∈ search_right_panel years tbls,
      (t.sj ∈ sixCodes ∨ t.sj = sl "CFS_연결재무제표" ∨ t.sj = sl "OFS_재무제표") ∧
        t.sj ≠ [] := by
  intro t ht
  have h1 := search_right_panel_sjOk_aux years tbls [] (by intro u hu; cases hu) t ht
  refine ⟨h1, ?_⟩
  rcases h1 with h | h | h
  · have hne : ∀ s ∈ sixCodes, s ≠ ([] : Str) := by decide
    exact hne _ h
  · rw [h]; decide
  · rw [h]; decide

/-- Witness for C2 at a page with one standard 재무상태표 title table. -/
theorem c2_witness :
    (({ sj := sl "OFS_BS", data := [] } : Template).sj ∈ sixCodes ∨
      ({ sj := sl "OFS_BS", data := [] } : Template).sj = sl "CFS_연결재무제표" ∨
      ({ sj := sl "OFS_BS", data := [] } : Template).sj = sl "OFS_재무제표") ∧
    ({ sj := sl "OFS_BS", data := [] } : Template).sj ≠ [] :=
  c2_emitted_sj_codes [] [Tbl.nbT rowsBS] { sj := sl "OFS_BS", data := [] } (by decide)

/-- C6 amended: acceptance requires a discoverable header row with exactly
four cells, cell 0 stripping to empty, and each of cells 2 and 3 (cell 1
is exempt) stripping to empty or matching the year pattern; the claim's
concrete examples hold. -/
theorem c6_data_table_validity :
    (∀ c0 c1 c2 c3 : Str,
      valid_standard_data_table (some [c0, c1, c2, c3]) = true ↔
        ((stripCh c0).isEmpty = true ∧
         ((stripCh c2).isEmpty = true ∨ matchJeGi c2 = true) ∧
         ((stripCh c3).isEmpty = true ∨ matchJeGi c3 = true))) ∧
    valid_standard_data_table none = false ∧
    (∀ cells : List Str, cells.length ≠ 4 → valid_standard_data_table (some cells) = false) ∧
    valid_standard_data_table (some [[], sl "제 10 기", sl "제 9 기", sl "제 8 기"]) = true := by
  refine ⟨?_, rfl, ?_, by decide⟩
  · intro c0 c1 c2 c3
    simp [valid_standard_data_table, List.enum, List.enumFrom, dataCellOk,
          Bool.and_eq_true, Bool.or_eq_true, Bool.not_eq_true']
  · intro cells h
    simp [valid_standard_data_table, h]

/-- Witness for C6 at a one-cell header. -/
theorem c6_witness : valid_standard_data_table (some [sl "x"]) = false :=
  c6_data_table_validity.2.2.1 [sl "x"] (by decide)

/-- C7 amended: a standard title table needs at least five rows, and only
the FIRST cell of each of rows 1, 2 and 3 is tested against the year
pattern; further cells of those rows are ignored.  The claim's concrete
examples hold. -/
theorem c7_title_table_validity :
    (∀ r0 r2 r3 r4 : List Str, ∀ c : Str, ∀ cs : List Str, ∀ rest : List (List Str),
      valid_standard_nb_table (r0 :: (c :: cs) :: r2 :: r3 :: r4 :: rest) =
        (matchJeGi c && nbRowOk r2 && nbRowOk r3)) ∧
    (∀ rows : List (List Str), rows.length < 5 → valid_standard_nb_table rows = false) ∧
    valid_standard_nb_table rowsBS = true := by
  refine ⟨?_, ?_, by decide⟩
  · intro r0 r2 r3 r4 c cs rest
    have hlen : 5 ≤ (r0 :: (c :: cs) :: r2 :: r3 :: r4 :: rest).length := by
      simp [List.length_cons]
    simp [valid_standard_nb_table, decide_eq_true hlen, nbRowOk, List.getD_cons_succ,
          List.getD_cons_zero]
  · intro rows h
    simp [valid_standard_nb_table, decide_eq_false (Nat.not_le.mpr h)]

/-- Witness for C7 at the empty table. -/
theorem c7_witness : valid_standard_nb_table [] = false :=
  c7_title_table_validity.2.1 [] (by decide)

/-- C8 amended: when the fallback year derivation is used, the three data
columns are labelled current_year minus 1, minus 2 and minus 3 (most
recent first), where current_year is parsed from the filing URL; column k
of a row with non-empty amount cells is paired with the label at position
k minus 1. -/
theorem c8_fallback_years (cy : Str) (y : Nat) (n a1 a2 a3 : Str)
    (hy : parseNatQ cy = some y)
    (h1 : a1.isEmpty = false) (h2 : a2.isEmpty = false) (h3 : a3.isEmpty = false) :
    searchYears cy = some [natToStr (y - 1), natToStr (y - 2), natToStr (y - 3)] ∧
    rowAmounts [natToStr (y - 1), natToStr (y - 2), natToStr (y - 3)] [n, a1, a2, a3] =
      [(natToStr (y - 1), cellAmount a1), (natToStr (y - 2), cellAmount a2),
       (natToStr (y - 3), cellAmount a3)] := by
  have h1n : a1 ≠ [] := by simpa using h1
  have h2n : a2 ≠ [] := by simpa using h2
  have h3n : a3 ≠ [] := by simpa using h3
  constructor
  · simp [searchYears, hy]
  · simp [rowAmounts, List.enum, List.enumFrom, h1n, h2n, h3n]

/-- Witness for C8 at the year 2024. -/
theorem c8_witness :
    searchYears (sl "2024") =
      some [natToStr (2024 - 1), natToStr (2024 - 2), natToStr (2024 - 3)] ∧
    rowAmounts [natToStr (2024 - 1), natToStr (2024 - 2), natToStr (2024 - 3)]
        [sl "자산", sl "10", sl "20", sl "30"] =
      [(natToStr (2024 - 1), cellAmount (sl "10")), (natToStr (2024 - 2), cellAmount (sl "20")),
       (natToStr (2024 - 3), cellAmount (sl "30"))] :=
  c8_fallback_years (sl "2024") 2024 (sl "자산") (sl "10") (sl "20") (sl "30")
    (by decide) (by decide) (by decide) (by decide)

/-- C10 amended: str_to_number parses a parenthesis-wrapped amount as the
negated comma-stripped number, the empty and whitespace-only strings as 0,
and otherwise the comma-stripped number; in the per-cell extraction a
whitespace-only (but non-empty) cell yields the amount 0, while a truly
blank cell yields no entry at all. -/
theorem c10_amount_parsing :
    strToNumber (sl "(1,234)") = -1234 ∧ strToNumber (sl "") = 0 ∧
    strToNumber (sl "1,234") = 1234 ∧
    (∀ s : Str, s.all isSpaceCh = true → strToNumber s = 0) ∧
    (∀ t : Str, (stripCh t).isEmpty = true → cellAmount t = sl "0") ∧
    (∀ years : List Str, ∀ n a2 a3 : Str, a2.isEmpty = false → a3.isEmpty = false →
      rowAmounts years [n, [], a2, a3] =
        [(years.getD 1 [], cellAmount a2), (years.getD 2 [], cellAmount a3)]) := by
  refine ⟨by decide, by decide, by decide, ?_, ?_, ?_⟩
  · intro s hs
    have h0 : ∀ x ∈ s, isSpaceCh x = true := by simpa [List.all_eq_true] using hs
    have h1 : stripCh s = [] := by
      unfold stripCh
      rw [List.dropWhile_eq_nil_iff.mpr h0]
      simp
    simp [strToNumber, h1, parseNatQ]
  · intro t ht
    unfold cellAmount
    rw [if_pos ht]
    rfl
  · intro years n a2 a3 h2 h3
    have h2n : a2 ≠ [] := by simpa using h2
    have h3n : a3 ≠ [] := by simpa using h3
    simp [rowAmounts, List.enum, List.enumFrom, h2n, h3n]

/-- Witness for C10 at a whitespace-only amount string and a row with a
blank cell. -/
theorem c10_witness :
    strToNumber (sl " ") = 0 ∧ cellAmount (sl " ") = sl "0" ∧
    rowAmounts [] [sl "자산", [], sl "1", sl "2"] =
      [(([] : List Str).getD 1 [], cellAmount (sl "1")),
       (([] : List Str).getD 2 [], cellAmount (sl "2"))] :=
  ⟨c10_amount_parsing.2.2.2.1 (sl " ") (by decide),
   c10_amount_parsing.2.2.2.2.1 (sl " ") (by decide),
   c10_amount_parsing.2.2.2.2.2 [] (sl "자산") (sl "1") (sl "2") (by decide) (by decide)⟩

/- Helper lemmas for C9: each scanner after the Unicode Roman filter emits
   only characters of its input, of its buffered input characters, or the
   literal pattern characters, so a character class absent from all of
   those stays absent. -/

theorem subParenGo_all (op cl : Char) (p : Char → Bool) (hop : p op = true) :
    ∀ (s : Str) (st : Option Str),
      s.all p = true →
      (match st with | none => true | some buf => buf.all p) = true →
      (subParenGo op cl st s).all p = true := by
  intro s
  induction s with
  | nil =>
    intro st hs hst
    cases st with
    | none => simp [subParenGo]
    | some buf =>
      rw [subParenGo, List.all_cons, Bool.and_eq_true, List.all_reverse]
      exact ⟨hop, hst⟩
  | cons d r ih =>
    intro st hs hst
    rw [List.all_cons, Bool.and_eq_true] at hs
    cases st with
    | none =>
      rw [subParenGo]
      by_cases hd : d = op
      · rw [if_pos hd]
        exact ih (some []) hs.2 rfl
      · rw [if_neg hd, List.all_cons, Bool.and_eq_true]
        exact ⟨hs.1, ih none hs.2 rfl⟩
    | some buf =>
      rw [subParenGo]
      by_cases hd : d = cl
      · rw [if_pos hd]
        exact ih none hs.2 rfl
      · rw [if_neg hd]
        exact ih (some (d :: buf)) hs.2
          (by show (d :: buf).all p = true
              rw [List.all_cons, Bool.and_eq_true]; exact ⟨hs.1, hst⟩)

theorem subJuGo_all (p : Char → Bool) (hpo : p '(' = true) (hpj : p '주' = true) :
    ∀ (s : Str) (st : JuSt),
      s.all p = true →
      (match st with | .s2 buf => buf.all p | _ => true) = true →
      (subJuGo st s).all p = true := by
  intro s
  induction s with
  | nil =>
    intro st hs hst
    cases st with
    | s0 => simp [subJuGo]
    | s1 => simp [subJuGo, hpo]
    | s2 buf =>
      rw [subJuGo, List.all_cons, Bool.and_eq_true, List.all_cons, Bool.and_eq_true,
        List.all_reverse]
      exact ⟨hpo, hpj, hst⟩
  | cons d r ih =>
    intro st hs hst
    rw [List.all_cons, Bool.and_eq_true] at hs
    cases st with
    | s0 =>
      rw [subJuGo]
      by_cases hd : d = '('
      · rw [if_pos hd]
        exact ih .s1 hs.2 rfl
      · rw [if_neg hd, List.all_cons, Bool.and_eq_true]
        exact ⟨hs.1, ih .s0 hs.2 rfl⟩
    | s1 =>
      rw [subJuGo]
      by_cases hd : d = '주'
      · rw [if_pos hd]
        exact ih (.s2 []) hs.2 rfl
      · rw [if_neg hd]
        by_cases hd2 : d = '('
        · rw [if_pos hd2, List.all_cons, Bool.and_eq_true]
          exact ⟨hpo, ih .s1 hs.2 rfl⟩
        · rw [if_neg hd2, List.all_cons, Bool.and_eq_true, List.all_cons, Bool.and_eq_true]
          exact ⟨hpo, hs.1, ih .s0 hs.2 rfl⟩
    | s2 buf =>
      rw [subJuGo]
      by_cases hd : d = ')'
      · rw [if_pos hd]
        exact ih .s0 hs.2 rfl
      · rw [if_neg hd]
        by_cases hb : isJuBody d
        · rw [if_pos hb]
          exact ih (.s2 (d :: buf)) hs.2
            (by show (d :: buf).all p = true
                rw [List.all_cons, Bool.and_eq_true]; exact ⟨hs.1, hst⟩)
        · rw [if_neg hb]
          by_cases hd2 : d = '('
          · rw [if_pos hd2, List.all_append, Bool.and_eq_true, List.all_cons,
              Bool.and_eq_true, List.all_cons, Bool.and_eq_true, List.all_reverse]
            exact ⟨⟨hpo, hpj, hst⟩, ih .s1 hs.2 rfl⟩
          · rw [if_neg hd2, List.all_append, Bool.and_eq_true, List.all_cons,
              Bool.and_eq_true, List.all_cons, Bool.and_eq_true, List.all_reverse,
              List.all_cons, Bool.and_eq_true]
            exact ⟨⟨hpo, hpj, hst⟩, hs.1, ih .s0 hs.2 rfl⟩

theorem subHangulDotGo_all (p : Char → Bool) :
    ∀ (s : Str) (st : HdSt),
      s.all p = true →
      (match st with | .sh h => p h | _ => true) = true →
      (subHangulDotGo st s).all p = true := by
  intro s
  induction s with
  | nil =>
    intro st hs hst
    cases st with
    | h0 => simp [subHangulDotGo]
    | sh h =>
      rw [subHangulDotGo, List.all_cons, Bool.and_eq_true, List.all_nil]
      exact ⟨hst, rfl⟩
    | sd => simp [subHangulDotGo]
  | cons d r ih =>
    intro st hs hst
    rw [List.all_cons, Bool.and_eq_true] at hs
    cases st with
    | h0 =>
      rw [subHangulDotGo]
      by_cases hh : isHangulCh d
      · rw [if_pos hh]
        exact ih (.sh d) hs.2 hs.1
      · rw [if_neg hh, List.all_cons, Bool.and_eq_true]
        exact ⟨hs.1, ih .h0 hs.2 rfl⟩
    | sh h =>
      rw [subHangulDotGo]
      by_cases hd : d = '.'
      · rw [if_pos hd]
        exact ih .sd hs.2 rfl
      · rw [if_neg hd]
        by_cases hh : isHangulCh d
        · rw [if_pos hh, List.all_cons, Bool.and_eq_true]
          exact ⟨hst, ih (.sh d) hs.2 hs.1⟩
        · rw [if_neg hh, List.all_cons, Bool.and_eq_true, List.all_cons, Bool.and_eq_true]
          exact ⟨hst, hs.1, ih .h0 hs.2 rfl⟩
    | sd =>
      rw [subHangulDotGo]
      by_cases hsp : isSpaceCh d
      · rw [if_pos hsp]
        exact ih .sd hs.2 rfl
      · rw [if_neg hsp]
        by_cases hh : isHangulCh d
        · rw [if_pos hh]
          exact ih (.sh d) hs.2 hs.1
        · rw [if_neg hh, List.all_cons, Bool.and_eq_true]
          exact ⟨hs.1, ih .h0 hs.2 rfl⟩

/-- C9 amended: the cleaning pipeline's output contains no ASCII digit, no
whitespace character of any kind (the full-width space included) and no
Unicode Roman-numeral glyph.  Parenthesis characters and ASCII Roman
letters are removed only as part of matched spans and boundary-delimited
tokens, so unpaired or undelimited ones can survive (see the
counterexample). -/
theorem c9_clean_output_classes (s : Str) :
    ∀ c ∈ cleanText s, isDigitCh c = false ∧ isSpaceCh c = false ∧ isUniRomanCh c = false := by
  intro c hc
  simp only [cleanText] at hc
  obtain ⟨hc8, hns⟩ := List.mem_filter.mp hc
  obtain ⟨hc7, _⟩ := List.mem_filter.mp hc8
  obtain ⟨hc6, hnb⟩ := List.mem_filter.mp hc7
  refine ⟨?_, by simpa using hns, ?_⟩
  · have hb : isStep7Bad c = false := by simpa using hnb
    rw [isStep7Bad] at hb
    simp only [Bool.or_eq_false_iff] at hb
    exact hb.1.1.1.1.1
  · have hall : ((subRoman ((replaceUnit (stripCh s)).filter (fun c => !(c = '"')))).filter
        (fun c => !isUniRomanCh c)).all (fun c => !isUniRomanCh c) = true := by
      rw [List.all_eq_true]
      intro x hx
      exact (List.mem_filter.mp hx).2
    have h4 := subJuGo_all (fun c => !isUniRomanCh c) (by decide) (by decide) _ .s0 hall rfl
    have h5a := subParenGo_all '(' ')' (fun c => !isUniRomanCh c) (by decide) _ none h4 rfl
    have h5b := subParenGo_all '（' '）' (fun c => !isUniRomanCh c) (by decide) _ none h5a rfl
    have h6 := subHangulDotGo_all (fun c => !isUniRomanCh c) _ .h0 h5b rfl
    have h7 := List.all_eq_true.mp h6 c hc6
    simpa using h7

/-- Witness for C9 at a concrete cleaned character. -/
theorem c9_witness :
    isDigitCh '자' = false ∧ isSpaceCh '자' = false ∧ isUniRomanCh '자' = false :=
  c9_clean_output_classes (sl "자산") '자' (by decide)

end PWC
